import Mathlib

/-!
Verification of the remote session orchestration in `src/ssh.rs` of the
cserun repository.

The Rust code drives one SSH session: it authenticates (password, key
file, or agent), provisions a timestamped remote workspace over SFTP,
mirrors the local directory tree into it, runs the configured command on
a channel, and drains the channel's standard-output and standard-error
streams in non-blocking mode until the channel reports end-of-stream.

The embedding below is a shallow one.  Every external call (TCP connect,
handshake, each authentication primitive, SFTP stat/mkdir/create/write,
channel reads, wait-close, exit-status) is resolved by an oracle world
that fixes the outcome of that call; the control flow, the order of
calls, the early returns on errors, and the data passed to each call are
translated directly from the source.  Each modelled function returns the
list of externally visible events it performed together with its result,
so theorems can speak both about results and about which calls were or
were not made.  The remote filesystem seen by `sftp_mkdir_recursive` is
an explicit association list, with `stat` as lookup and `mkdir` as
insertion.  The unbounded `loop` of `exec` becomes a fuel-indexed
recursion; running out of fuel is a distinguished outcome separate from
the loop's own exits.
-/

namespace CseRun

/-! ## Configuration (`AuthKey`, `Auth`, `Config` from `src/ssh.rs`) -/

/-- Key-file credentials: optional public key path, required private key
path, optional passphrase (struct `AuthKey`). -/
structure AuthKey where
  pubkey : Option String
  privekey : String
  passphrase : Option String
deriving DecidableEq

/-- The three authentication variants (enum `Auth`). -/
inductive Auth where
  | password (p : String)
  | authKey (k : AuthKey)
  | agent
deriving DecidableEq

/-- Session configuration (struct `Config`). -/
structure Config where
  serverAddr : String
  username : String
  auth : Auth
  command : String
deriving DecidableEq

/-! ## Remote filesystem model for `sftp_mkdir_recursive` -/

/-- Model of the remote filesystem visible through SFTP: an association
list from a path (its list of components) to a flag that is `true` for a
directory and `false` for any other node.  `stat` is lookup; `mkdir` of
an absent path prepends a directory entry (the in-memory remote accepts
every such `mkdir`, the success case of the real call). -/
abbrev Fs := List (List String × Bool)

/-- Lookup of a path in the modelled remote filesystem: `none` means the
path does not exist (the `Err` outcome of `sftp.stat`), `some b` means it
exists and `b` tells whether it is a directory. -/
def fsStat : Fs → List String → Option Bool
  | [], _ => none
  | (q, b) :: fs, p => if p = q then some b else fsStat fs p

/-- Worker of `sftp_mkdir_recursive`: walk through the remaining
components `rest`, keeping the accumulated path `cur` (the Rust code's
`current_path`).  Each extended prefix is `stat`ed: an existing directory
is skipped, an existing non-directory aborts with an error message, an
absent prefix is created with mode `0o755`.  Returns the final
filesystem, the prefixes created (with their mode), and `none` on
success or `some msg` for the error returned. -/
def mkdirRecGo (fs : Fs) (cur : List String) :
    List String → Fs × List (List String × Nat) × Option String
  | [] => (fs, [], none)
  | c :: rest =>
    let cur' := cur ++ [c]
    match fsStat fs cur' with
    | some true => mkdirRecGo fs cur' rest
    | some false => (fs, [], some (String.intercalate "/" cur' ++ " is not a directory"))
    | none =>
      let out := mkdirRecGo ((cur', true) :: fs) cur' rest
      (out.1, (cur', 0o755) :: out.2.1, out.2.2)

/-- Rust function `sftp_mkdir_recursive` over the modelled remote
filesystem: create every component of `path` from the root downward. -/
def sftp_mkdir_recursive (fs : Fs) (path : List String) :
    Fs × List (List String × Nat) × Option String :=
  mkdirRecGo fs [] path

/-- All extensions of `cur` by a nonempty prefix of the remaining
components: exactly the paths `sftp_mkdir_recursive` stats. -/
def prefixesFrom (cur : List String) : List String → List (List String)
  | [] => []
  | c :: rest => (cur ++ [c]) :: prefixesFrom (cur ++ [c]) rest

/-- The nonempty prefixes of a path, as component lists. -/
def prefixesOf (path : List String) : List (List String) :=
  prefixesFrom [] path

/-! ## Drain loop of `exec` -/

/-- Outcome of one non-blocking `read` call on a channel stream:
`ok data` is `Ok(size)` with the bytes read (`size = data.length`, and
`Ok(0)` is `ok []`), `wouldBlock` is an error of kind `WouldBlock`, and
`fatal e` is a read error of any other kind. -/
inductive ReadRes where
  | ok (data : List Nat)
  | wouldBlock
  | fatal (e : String)
deriving DecidableEq

/-- Externally visible events of one run of the drain loop. -/
inductive DEv where
  | pollEof (b : Bool)
  | readOut (r : ReadRes)
  | readErr (r : ReadRes)
  | printOut (data : List Nat)
  | printErr (data : List Nat)
  | sleep
deriving DecidableEq

/-- Total head with a default: the next oracle answer, quiescent when
the list is exhausted. -/
def headO {α : Type} (l : List α) (d : α) : α :=
  match l with
  | [] => d
  | a :: _ => a

/-- Oracle environment of the drain loop: the successive answers of
`channel.eof()`, of `channel.read(..)` and of `channel.stderr().read(..)`,
one entry consumed per call.  Exhausted lists answer `false` resp.
`WouldBlock`, the quiescent answers. -/
structure DrainEnv where
  eofs : List Bool
  outs : List ReadRes
  errs : List ReadRes
deriving DecidableEq

/-- The error carried by a read outcome when it is fatal (an error kind
other than `WouldBlock`). -/
def fatalOf : ReadRes → Option String
  | .fatal e => some e
  | _ => none

/-- Whether a read outcome sets `is_data_available`: only a successful
read of more than zero bytes does. -/
def readAvail : ReadRes → Bool
  | .ok data => decide (0 < data.length)
  | _ => false

/-- Print events caused by a standard-output read (bytes are forwarded
only when more than zero were read). -/
def outPrints : ReadRes → List DEv
  | .ok data => if 0 < data.length then [DEv.printOut data] else []
  | _ => []

/-- Print events caused by a standard-error read. -/
def errPrints : ReadRes → List DEv
  | .ok data => if 0 < data.length then [DEv.printErr data] else []
  | _ => []

/-- Result of one iteration of the drain loop body. -/
inductive StepRes where
  | brk
  | fatal (e : String)
  | next (env : DrainEnv)
deriving DecidableEq

/-- One iteration of the `loop` in `exec` (`src/ssh.rs` lines 92-126):
check `channel.eof()` and break if set; otherwise read standard output
(printing any bytes, returning on a non-WouldBlock error), then read
standard error the same way, then sleep 100 ms when neither stream
produced data. -/
def drainStep (env : DrainEnv) : List DEv × StepRes :=
  if headO env.eofs false then
    ([DEv.pollEof true], StepRes.brk)
  else
    let o := headO env.outs ReadRes.wouldBlock
    let evsO := [DEv.pollEof false, DEv.readOut o] ++ outPrints o
    match fatalOf o with
    | some e => (evsO, StepRes.fatal e)
    | none =>
      let r := headO env.errs ReadRes.wouldBlock
      let evsE := evsO ++ [DEv.readErr r] ++ errPrints r
      match fatalOf r with
      | some e => (evsE, StepRes.fatal e)
      | none =>
        let evsS := evsE ++ (if readAvail o || readAvail r then [] else [DEv.sleep])
        (evsS, StepRes.next ⟨env.eofs.tail, env.outs.tail, env.errs.tail⟩)

/-- How a full run of the drain loop ends: hitting the `break` on channel
end-of-stream, returning a fatal read error, or exhausting the fuel of
the embedding (the Rust loop has no bound of its own). -/
inductive LoopOut where
  | broke
  | fatal (e : String)
  | fuelOut
deriving DecidableEq

/-- The drain loop of `exec`: iterate `drainStep` until it breaks or
returns an error, collecting the events of every iteration. -/
def drainLoop : Nat → DrainEnv → List DEv × LoopOut
  | 0, _ => ([], LoopOut.fuelOut)
  | fuel + 1, env =>
    match drainStep env with
    | (evs, StepRes.brk) => (evs, LoopOut.broke)
    | (evs, StepRes.fatal e) => (evs, LoopOut.fatal e)
    | (evs, StepRes.next env') =>
      let out := drainLoop fuel env'
      (evs ++ out.1, out.2)

/-! ## Mirror model for `upload_dir` and `upload_file` -/

/-- One entry yielded by the ignore-aware walker: its absolute path (as
components) and whether the local filesystem says it is a directory. -/
structure WEntry where
  path : List String
  isDir : Bool
deriving DecidableEq

/-- Externally visible events of the mirroring functions.  The `skip`
events mark walker items the Rust code drops without doing anything; the
`print` events are the `println!` calls of the source. -/
inductive MEv where
  | openLocal (p : List String)
  | readLocal (p : List String)
  | createRemote (p : List String)
  | writeRemote (p : List String) (data : List Nat)
  | printUploaded (p : List String)
  | mkdirTry (p : List String)
  | printCreatedDir (p : List String)
  | printDirError (p : List String) (e : String)
  | skipOutsideRoot (p : List String)
  | skipWalkError (e : String)
deriving DecidableEq

/-- Whether a mirror event is one of the `println!` log lines of the
source (the only way a non-fatal condition is reported). -/
def isLogEv : MEv → Bool
  | MEv.printUploaded _ => true
  | MEv.printCreatedDir _ => true
  | MEv.printDirError _ _ => true
  | _ => false

/-- Oracle world of the mirroring functions: the outcome of each
external call, per path, plus the sequence the walker yields (each item
either an entry or a walker error, as the Rust iterator of
`Result<DirEntry, Error>`). -/
structure MirrorWorld where
  mkdirRes : List String → Except String Unit
  openRes : List String → Except String Unit
  readRes : List String → Except String (List Nat)
  createRes : List String → Except String Unit
  writeRes : List String → Except String Unit
  walk : List (Except String WEntry)

/-- The `strip_prefix` of the source: the path relative to the local
root, or `none` when the entry does not lie under the root. -/
def stripRel (root p : List String) : Option (List String) :=
  if root.isPrefixOf p then some (p.drop root.length) else none

/-- Rust function `upload_file`: open the local file, read it fully into
memory, create the remote file, write the bytes; each step fallible,
returning the first error. -/
def upload_file (w : MirrorWorld) (localPath remotePath : List String) :
    List MEv × Except String Unit :=
  match w.openRes localPath with
  | Except.error e => ([MEv.openLocal localPath], Except.error e)
  | Except.ok _ =>
    match w.readRes localPath with
    | Except.error e =>
        ([MEv.openLocal localPath, MEv.readLocal localPath], Except.error e)
    | Except.ok contents =>
      match w.createRes remotePath with
      | Except.error e =>
          ([MEv.openLocal localPath, MEv.readLocal localPath,
            MEv.createRemote remotePath], Except.error e)
      | Except.ok _ =>
        match w.writeRes remotePath with
        | Except.error e =>
            ([MEv.openLocal localPath, MEv.readLocal localPath,
              MEv.createRemote remotePath, MEv.writeRemote remotePath contents],
             Except.error e)
        | Except.ok _ =>
            ([MEv.openLocal localPath, MEv.readLocal localPath,
              MEv.createRemote remotePath, MEv.writeRemote remotePath contents,
              MEv.printUploaded remotePath], Except.ok ())

/-- Worker of `upload_dir` over the remaining walker items.  Walker
errors are dropped by the `if let Ok(entry)` pattern; entries outside the
root are dropped by the `if let Ok(strip_path)` pattern; directory
entries get a remote `mkdir` whose failure is only logged; file entries
go through `upload_file`, whose error aborts the whole mirror. -/
def upload_dir_go (w : MirrorWorld) (localRoot remoteBase : List String) :
    List (Except String WEntry) → List MEv × Except String Unit
  | [] => ([], Except.ok ())
  | Except.error e :: rest =>
    let out := upload_dir_go w localRoot remoteBase rest
    (MEv.skipWalkError e :: out.1, out.2)
  | Except.ok entry :: rest =>
    match stripRel localRoot entry.path with
    | none =>
      let out := upload_dir_go w localRoot remoteBase rest
      (MEv.skipOutsideRoot entry.path :: out.1, out.2)
    | some rel =>
      let remotePath := remoteBase ++ rel
      if entry.isDir then
        let mevs :=
          match w.mkdirRes remotePath with
          | Except.ok _ => [MEv.mkdirTry remotePath, MEv.printCreatedDir remotePath]
          | Except.error e => [MEv.mkdirTry remotePath, MEv.printDirError remotePath e]
        let out := upload_dir_go w localRoot remoteBase rest
        (mevs ++ out.1, out.2)
      else
        match upload_file w entry.path remotePath with
        | (fevs, Except.error e) => (fevs, Except.error e)
        | (fevs, Except.ok _) =>
          let out := upload_dir_go w localRoot remoteBase rest
          (fevs ++ out.1, out.2)

/-- Rust function `upload_dir`: run the walker over the local root and
process every yielded item. -/
def upload_dir (w : MirrorWorld) (localRoot remoteBase : List String) :
    List MEv × Except String Unit :=
  upload_dir_go w localRoot remoteBase w.walk

/-! ## The `exec` pipeline -/

/-- Externally visible events of `exec`. -/
inductive Ev where
  | connect
  | handshake
  | authPassword (user : String)
  | authPubkey (user : String)
  | agentNew
  | agentConnect
  | agentList
  | agentGetIdentities
  | agentAuth (user : String)
  | sftpOpen
  | printRemoteDir (s : String)
  | mkdir (p : List String) (mode : Nat)
  | createFile (p : List String)
  | writeFile (p : List String) (data : String)
  | mirrorEv (m : MEv)
  | channelOpen
  | chanExec (cmd : String)
  | setBlocking (b : Bool)
  | drainEv (d : DEv)
  | waitClose (blocking : Bool)
  | exitStatusq (blocking : Bool)
  | printExit (n : Int)
deriving DecidableEq

/-- Result of a (partial) run of `exec`: success, a returned error, or
divergence of the embedded unbounded loop (fuel exhaustion). -/
inductive RunRes (α : Type) where
  | ok (a : α)
  | err (e : String)
  | diverge
deriving DecidableEq

/-- A run fragment: the events it performs and its result. -/
abbrev Run (α : Type) := List Ev × RunRes α

/-- Sequencing of run fragments, with the early-return behaviour of the
`?` operator: an error (or divergence) keeps the events performed so far
and skips the continuation. -/
def rbind {α β : Type} (x : Run α) (f : α → Run β) : Run β :=
  match x with
  | (evs, RunRes.ok a) => (evs ++ (f a).1, (f a).2)
  | (evs, RunRes.err e) => (evs, RunRes.err e)
  | (evs, RunRes.diverge) => (evs, RunRes.diverge)

/-- Lift one fallible external call into a run fragment: the call event
is recorded whether the oracle answers success or failure. -/
def liftE {α : Type} (ev : Ev) (r : Except String α) : Run α :=
  match r with
  | Except.ok a => ([ev], RunRes.ok a)
  | Except.error e => ([ev], RunRes.err e)

/-- Oracle world of `exec`: the outcome of every external call it can
make, the timestamp the clock yields, the remote filesystem, the mirror
world of `upload_dir`, the drain-loop environment, and the fuel bounding
the embedded loop. -/
structure SshWorld where
  tcpConnectRes : Except String Unit
  handshakeRes : Except String Unit
  passwordRes : Except String Unit
  pubkeyRes : Except String Unit
  sessAgentRes : Except String Unit
  agentConnectRes : Except String Unit
  agentListRes : Except String Unit
  agentIdentitiesRes : Except String (List String)
  agentAuthRes : Except String Unit
  sftpRes : Except String Unit
  nowTimestamp : String
  remoteFs : Fs
  createCmdFileRes : Except String Unit
  writeCmdFileRes : Except String Unit
  mirror : MirrorWorld
  channelSessionRes : Except String Unit
  channelExecRes : Except String Unit
  eofs : List Bool
  outs : List ReadRes
  errs : List ReadRes
  fuel : Nat
  waitCloseRes : Except String Unit
  exitStatusRes : Except String Int

/-- The authentication step of `exec` (`src/ssh.rs` lines 35-57): the
match on the three variants.  The agent arm enumerates identities and
fails fast when the agent holds none, before any server-side agent
authentication. -/
def authOutcome (w : SshWorld) (user : String) : Auth → Run Unit
  | Auth.password _ => liftE (Ev.authPassword user) w.passwordRes
  | Auth.authKey _ => liftE (Ev.authPubkey user) w.pubkeyRes
  | Auth.agent =>
    rbind (liftE Ev.agentNew w.sessAgentRes) fun _ =>
    rbind (liftE Ev.agentConnect w.agentConnectRes) fun _ =>
    rbind (liftE Ev.agentList w.agentListRes) fun _ =>
    rbind (liftE Ev.agentGetIdentities w.agentIdentitiesRes) fun ids =>
    if ids.length = 0 then ([], RunRes.err "No identities found in the ssh-agent")
    else liftE (Ev.agentAuth user) w.agentAuthRes

/-- The remote workspace path as a string:
`format!(".cserun/temp/{}", temp_dir_name)`. -/
def remoteDirStr (w : SshWorld) : String :=
  ".cserun/temp/" ++ w.nowTimestamp

/-- The components of the workspace path (what `Path::components` yields
on it; the timestamp contains no separator). -/
def remoteDirC (w : SshWorld) : List String :=
  [".cserun", "temp", w.nowTimestamp]

/-- Components of the `command.txt` audit file path. -/
def cmdTxtC (w : SshWorld) : List String :=
  remoteDirC w ++ ["command.txt"]

/-- Components of the `container` subtree path. -/
def containerC (w : SshWorld) : List String :=
  remoteDirC w ++ ["container"]

/-- The invocation string submitted on the channel:
`format!("cd {}/container && {}", remote_dir, conf.command)`. -/
def invocation (w : SshWorld) (conf : Config) : String :=
  "cd " ++ remoteDirStr w ++ "/container && " ++ conf.command

/-- The `sftp_mkdir_recursive(&sftp, remote_dir_path)?` call of `exec`
as a run fragment: one `mkdir` event per created prefix. -/
def mkdirRecRun (w : SshWorld) : Run Unit :=
  match sftp_mkdir_recursive w.remoteFs (remoteDirC w) with
  | (_, created, none) =>
      (created.map (fun pm => Ev.mkdir pm.1 pm.2), RunRes.ok ())
  | (_, created, some e) =>
      (created.map (fun pm => Ev.mkdir pm.1 pm.2), RunRes.err e)

/-- The `upload_dir(&sftp, Path::new(local_dir), container_path)?` call
of `exec` as a run fragment (the local root `"./"` has the single
component `"."`). -/
def uploadRun (w : SshWorld) : Run Unit :=
  match upload_dir w.mirror ["."] (containerC w) with
  | (mevs, Except.ok _) => (mevs.map Ev.mirrorEv, RunRes.ok ())
  | (mevs, Except.error e) => (mevs.map Ev.mirrorEv, RunRes.err e)

/-- The drain-loop environment held by the world. -/
def drainEnvOf (w : SshWorld) : DrainEnv :=
  ⟨w.eofs, w.outs, w.errs⟩

/-- The drain loop of `exec` as a run fragment. -/
def drainRun (w : SshWorld) : Run Unit :=
  match drainLoop w.fuel (drainEnvOf w) with
  | (devs, LoopOut.broke) => (devs.map Ev.drainEv, RunRes.ok ())
  | (devs, LoopOut.fatal e) => (devs.map Ev.drainEv, RunRes.err e)
  | (devs, LoopOut.fuelOut) => (devs.map Ev.drainEv, RunRes.diverge)

/-- Everything `exec` does after submitting the command on the channel:
disable blocking on the session, run the drain loop, wait for the
channel to close, query and print the exit status.  The session's
blocking flag is `false` from `set_blocking(false)` onward — the source
never re-enables it — so the wait-close and exit-status calls are
recorded with blocking mode `false`. -/
def postChan (w : SshWorld) : Run Unit :=
  rbind ([Ev.setBlocking false], RunRes.ok ()) fun _ =>
  rbind (drainRun w) fun _ =>
  rbind (liftE (Ev.waitClose false) w.waitCloseRes) fun _ =>
  rbind (liftE (Ev.exitStatusq false) w.exitStatusRes) fun n =>
  ([Ev.printExit n], RunRes.ok ())

/-- Rust function `exec` (`src/ssh.rs` lines 29-132): connect,
handshake, authenticate, open SFTP, provision the workspace, write the
audit file, mirror the local tree, open the channel, submit the
invocation string, then hand over to `postChan`. -/
def exec (w : SshWorld) (conf : Config) : Run Unit :=
  rbind (liftE Ev.connect w.tcpConnectRes) fun _ =>
  rbind (liftE Ev.handshake w.handshakeRes) fun _ =>
  rbind (authOutcome w conf.username conf.auth) fun _ =>
  rbind (liftE Ev.sftpOpen w.sftpRes) fun _ =>
  rbind ([Ev.printRemoteDir (remoteDirStr w)], RunRes.ok ()) fun _ =>
  rbind (mkdirRecRun w) fun _ =>
  rbind (liftE (Ev.createFile (cmdTxtC w)) w.createCmdFileRes) fun _ =>
  rbind (liftE (Ev.writeFile (cmdTxtC w) conf.command) w.writeCmdFileRes) fun _ =>
  rbind (uploadRun w) fun _ =>
  rbind (liftE Ev.channelOpen w.channelSessionRes) fun _ =>
  rbind (liftE (Ev.chanExec (invocation w conf)) w.channelExecRes) fun _ =>
  postChan w

/-- Whether an event touches the remote workspace: opening the SFTP
session, creating a directory or file, writing bytes, or any mirroring
action. -/
def isWorkspaceEv : Ev → Bool
  | Ev.sftpOpen => true
  | Ev.mkdir _ _ => true
  | Ev.createFile _ => true
  | Ev.writeFile _ _ => true
  | Ev.mirrorEv _ => true
  | _ => false

/-! ## Concrete worlds used by witnesses and counterexamples -/

/-- A mirror world whose calls all succeed and whose walker yields
nothing. -/
def mwOk : MirrorWorld :=
  { mkdirRes := fun _ => Except.ok ()
    openRes := fun _ => Except.ok ()
    readRes := fun _ => Except.ok []
    createRes := fun _ => Except.ok ()
    writeRes := fun _ => Except.ok ()
    walk := [] }

/-- A mirror world whose walker yields exactly one walker-level error. -/
def mwWalkErr : MirrorWorld :=
  { mwOk with walk := [Except.error "boom"] }

/-- A mirror world where opening any local file fails. -/
def mwOpenFail : MirrorWorld :=
  { mwOk with openRes := fun _ => Except.error "denied" }

/-- A world where every external call succeeds, the agent holds one
identity, the channel reports end-of-stream immediately, and the remote
command exits with status 0. -/
def wOk : SshWorld :=
  { tcpConnectRes := Except.ok ()
    handshakeRes := Except.ok ()
    passwordRes := Except.ok ()
    pubkeyRes := Except.ok ()
    sessAgentRes := Except.ok ()
    agentConnectRes := Except.ok ()
    agentListRes := Except.ok ()
    agentIdentitiesRes := Except.ok ["id1"]
    agentAuthRes := Except.ok ()
    sftpRes := Except.ok ()
    nowTimestamp := "2024-02-14-01-10-40-224"
    remoteFs := []
    createCmdFileRes := Except.ok ()
    writeCmdFileRes := Except.ok ()
    mirror := mwOk
    channelSessionRes := Except.ok ()
    channelExecRes := Except.ok ()
    eofs := [true]
    outs := []
    errs := []
    fuel := 1
    waitCloseRes := Except.ok ()
    exitStatusRes := Except.ok 0 }

/-- A world identical to `wOk` except that password authentication is
rejected by the server. -/
def wAuthFail : SshWorld :=
  { wOk with passwordRes := Except.error "Authentication failed" }

/-- A world identical to `wOk` except that the agent reports zero
identities. -/
def wNoIds : SshWorld :=
  { wOk with agentIdentitiesRes := Except.ok [] }

/-- The configuration used by witnesses. -/
def confEx : Config :=
  { serverAddr := "server:22"
    username := "u"
    auth := Auth.password "pw"
    command := "make test" }

/-! ## Lemmas about `sftp_mkdir_recursive` -/

theorem prefixesFrom_length (rest : List String) :
    ∀ cur p, p ∈ prefixesFrom cur rest → cur.length < p.length := by
  induction rest with
  | nil => intro cur p hp; simp [prefixesFrom] at hp
  | cons c rest ih =>
    intro cur p hp
    simp only [prefixesFrom, List.mem_cons] at hp
    rcases hp with rfl | hp
    · simp
    · have h := ih (cur ++ [c]) p hp
      simp only [List.length_append, List.length_cons, List.length_nil] at h
      omega

theorem mkdirRecGo_preserve (rest : List String) :
    ∀ fs cur q b, fsStat fs q = some b → q.length ≤ cur.length →
      fsStat (mkdirRecGo fs cur rest).1 q = some b := by
  induction rest with
  | nil => intro fs cur q b h _; simpa [mkdirRecGo] using h
  | cons c rest ih =>
    intro fs cur q b h hlen
    rcases hst : fsStat fs (cur ++ [c]) with _ | bb
    · have hq : q ≠ cur ++ [c] := by
        intro e; rw [e, hst] at h; exact Option.noConfusion h
      simp only [mkdirRecGo, hst]
      refine ih ((cur ++ [c], true) :: fs) (cur ++ [c]) q b ?_ ?_
      · simp [fsStat, hq, h]
      · simp only [List.length_append, List.length_cons, List.length_nil]; omega
    · cases bb
      · simpa [mkdirRecGo, hst] using h
      · simp only [mkdirRecGo, hst]
        refine ih fs (cur ++ [c]) q b h ?_
        simp only [List.length_append, List.length_cons, List.length_nil]; omega

theorem mkdirRecGo_created (rest : List String) :
    ∀ fs cur, ∀ pm ∈ (mkdirRecGo fs cur rest).2.1,
      pm.2 = 0o755 ∧ fsStat fs pm.1 = none ∧ cur.length < pm.1.length := by
  induction rest with
  | nil => intro fs cur pm hpm; simp [mkdirRecGo] at hpm
  | cons c rest ih =>
    intro fs cur pm hpm
    rcases hst : fsStat fs (cur ++ [c]) with _ | bb
    · simp only [mkdirRecGo, hst, List.mem_cons] at hpm
      rcases hpm with rfl | hpm
      · exact ⟨rfl, hst, by simp⟩
      · obtain ⟨h755, habs, hlen⟩ := ih ((cur ++ [c], true) :: fs) (cur ++ [c]) pm hpm
        have hne : pm.1 ≠ cur ++ [c] := by
          intro e; rw [e] at habs; simp [fsStat] at habs
        simp only [fsStat, if_neg hne] at habs
        refine ⟨h755, habs, ?_⟩
        simp only [List.length_append, List.length_cons, List.length_nil] at hlen
        omega
    · cases bb
      · simp [mkdirRecGo, hst] at hpm
      · simp only [mkdirRecGo, hst] at hpm
        obtain ⟨h755, habs, hlen⟩ := ih fs (cur ++ [c]) pm hpm
        refine ⟨h755, habs, ?_⟩
        simp only [List.length_append, List.length_cons, List.length_nil] at hlen
        omega

theorem mkdirRecGo_ok_iff (rest : List String) :
    ∀ fs cur, (mkdirRecGo fs cur rest).2.2 = none ↔
      ∀ p ∈ prefixesFrom cur rest, fsStat fs p ≠ some false := by
  induction rest with
  | nil => intro fs cur; simp [mkdirRecGo, prefixesFrom]
  | cons c rest ih =>
    intro fs cur
    rcases hst : fsStat fs (cur ++ [c]) with _ | bb
    · simp only [mkdirRecGo, hst, prefixesFrom, List.mem_cons]
      constructor
      · intro h p hp
        rcases hp with rfl | hp
        · simp [hst]
        · have hne : p ≠ cur ++ [c] := by
            have hl := prefixesFrom_length rest (cur ++ [c]) p hp
            intro e; rw [e] at hl; omega
          have h2 := (ih ((cur ++ [c], true) :: fs) (cur ++ [c])).mp h p hp
          simpa [fsStat, hne] using h2
      · intro h
        refine (ih _ _).mpr ?_
        intro p hp
        have hne : p ≠ cur ++ [c] := by
          have hl := prefixesFrom_length rest (cur ++ [c]) p hp
          intro e; rw [e] at hl; omega
        simp only [fsStat, if_neg hne]
        exact h p (Or.inr hp)
    · cases bb
      · simp only [mkdirRecGo, hst, prefixesFrom, List.mem_cons]
        constructor
        · intro h; exact absurd h (by simp)
        · intro h; exact absurd hst (h _ (Or.inl rfl))
      · simp only [mkdirRecGo, hst, prefixesFrom, List.mem_cons]
        rw [ih fs (cur ++ [c])]
        constructor
        · intro h p hp
          rcases hp with rfl | hp
          · simp [hst]
          · exact h p hp
        · intro h p hp
          exact h p (Or.inr hp)

theorem mkdirRecGo_allDirs (rest : List String) :
    ∀ fs cur, (mkdirRecGo fs cur rest).2.2 = none →
      ∀ p ∈ prefixesFrom cur rest, fsStat (mkdirRecGo fs cur rest).1 p = some true := by
  induction rest with
  | nil => intro fs cur _ p hp; simp [prefixesFrom] at hp
  | cons c rest ih =>
    intro fs cur hok p hp
    simp only [prefixesFrom, List.mem_cons] at hp
    rcases hst : fsStat fs (cur ++ [c]) with _ | bb
    · simp only [mkdirRecGo, hst] at hok ⊢
      rcases hp with rfl | hp'
      · exact mkdirRecGo_preserve rest ((cur ++ [c], true) :: fs) (cur ++ [c]) (cur ++ [c])
          true (by simp [fsStat]) le_rfl
      · exact ih _ _ hok p hp'
    · cases bb
      · simp only [mkdirRecGo, hst] at hok
        exact absurd hok (by simp)
      · simp only [mkdirRecGo, hst] at hok ⊢
        rcases hp with rfl | hp'
        · exact mkdirRecGo_preserve rest fs (cur ++ [c]) (cur ++ [c]) true hst le_rfl
        · exact ih _ _ hok p hp'

theorem mkdirRecGo_noop (rest : List String) :
    ∀ fs cur, (∀ p ∈ prefixesFrom cur rest, fsStat fs p = some true) →
      mkdirRecGo fs cur rest = (fs, [], none) := by
  induction rest with
  | nil => intro fs cur _; rfl
  | cons c rest ih =>
    intro fs cur hall
    have h1 : fsStat fs (cur ++ [c]) = some true :=
      hall _ (by simp [prefixesFrom])
    simp only [mkdirRecGo, h1]
    refine ih fs (cur ++ [c]) ?_
    intro p hp
    exact hall p (by simp only [prefixesFrom, List.mem_cons]; exact Or.inr hp)

/-- C4: `sftp_mkdir_recursive` stats each accumulated prefix of the path
from the root downward; every prefix it creates was absent and is
created with mode `0o755`; it succeeds exactly when no prefix exists as
a non-directory (an existing directory is skipped, an existing
non-directory is an error); and a second application to the same path
over the filesystem a successful first application produced succeeds
and creates nothing (idempotence). -/
theorem sftp_mkdir_recursive_spec (fs : Fs) (path : List String) :
    (∀ pm ∈ (sftp_mkdir_recursive fs path).2.1,
        pm.2 = 0o755 ∧ fsStat fs pm.1 = none) ∧
    ((sftp_mkdir_recursive fs path).2.2 = none ↔
        ∀ p ∈ prefixesOf path, fsStat fs p ≠ some false) ∧
    ((sftp_mkdir_recursive fs path).2.2 = none →
        sftp_mkdir_recursive (sftp_mkdir_recursive fs path).1 path =
          ((sftp_mkdir_recursive fs path).1, [], none)) := by
  refine ⟨?_, ?_, ?_⟩
  · intro pm hpm
    obtain ⟨h1, h2, _⟩ := mkdirRecGo_created path fs [] pm hpm
    exact ⟨h1, h2⟩
  · exact mkdirRecGo_ok_iff path fs []
  · intro hok
    exact mkdirRecGo_noop path _ [] (mkdirRecGo_allDirs path fs [] hok)

/-- Witness for C4: a concrete successful creation, with the idempotence
conclusion instantiated there. -/
theorem sftp_mkdir_recursive_spec_witness :
    (sftp_mkdir_recursive [] ["a", "b"]).2.2 = none ∧
    sftp_mkdir_recursive (sftp_mkdir_recursive [] ["a", "b"]).1 ["a", "b"] =
      ((sftp_mkdir_recursive [] ["a", "b"]).1, [], none) :=
  ⟨rfl, (sftp_mkdir_recursive_spec [] ["a", "b"]).2.2 rfl⟩

/-! ## Lemmas about the run combinators -/

theorem rbind_ok {α β : Type} {x : Run α} {a : α} (f : α → Run β)
    (h : x.2 = RunRes.ok a) : rbind x f = (x.1 ++ (f a).1, (f a).2) := by
  rcases x with ⟨evs, r⟩
  cases r with
  | ok b => cases h; rfl
  | err e => cases h
  | diverge => cases h

theorem rbind_err {α β : Type} {x : Run α} {e : String} (f : α → Run β)
    (h : x.2 = RunRes.err e) : rbind x f = (x.1, RunRes.err e) := by
  rcases x with ⟨evs, r⟩
  cases r with
  | ok b => cases h
  | err e' => cases h; rfl
  | diverge => cases h

theorem rbind_snd_ok {α β : Type} {x : Run α} {a : α} (f : α → Run β)
    (h : x.2 = RunRes.ok a) : (rbind x f).2 = (f a).2 := by
  rw [rbind_ok f h]

theorem rbind_snd_err {α β : Type} {x : Run α} {e : String} (f : α → Run β)
    (h : x.2 = RunRes.err e) : (rbind x f).2 = RunRes.err e := by
  rw [rbind_err f h]

/-! ## Lemmas about the drain loop -/

theorem drainStep_nonfatal (env : DrainEnv)
    (h1 : headO env.eofs false = false)
    (h2 : fatalOf (headO env.outs ReadRes.wouldBlock) = none)
    (h3 : fatalOf (headO env.errs ReadRes.wouldBlock) = none) :
    drainStep env =
      ([DEv.pollEof false, DEv.readOut (headO env.outs ReadRes.wouldBlock)] ++
        outPrints (headO env.outs ReadRes.wouldBlock) ++
        [DEv.readErr (headO env.errs ReadRes.wouldBlock)] ++
        errPrints (headO env.errs ReadRes.wouldBlock) ++
        (if readAvail (headO env.outs ReadRes.wouldBlock) ||
            readAvail (headO env.errs ReadRes.wouldBlock) then ([] : List DEv)
         else [DEv.sleep]),
       StepRes.next ⟨env.eofs.tail, env.outs.tail, env.errs.tail⟩) := by
  simp [drainStep, h1, h2, h3]

theorem drainStep_brk_events (env : DrainEnv) :
    (drainStep env).2 = StepRes.brk → (drainStep env).1 = [DEv.pollEof true] := by
  by_cases h : headO env.eofs false
  · intro _; simp [drainStep, h]
  · intro hb
    exfalso
    simp only [Bool.not_eq_true] at h
    rcases ho : fatalOf (headO env.outs ReadRes.wouldBlock) with _ | e
    · rcases hr : fatalOf (headO env.errs ReadRes.wouldBlock) with _ | e'
      · simp [drainStep, h, ho, hr] at hb
      · simp [drainStep, h, ho, hr] at hb
    · simp [drainStep, h, ho] at hb

/-- C1: in the drain loop of `exec`, every iteration that does not hit
channel end-of-stream or a fatal read error reads both the
standard-output and the standard-error stream — whatever non-fatal
outcome (data, zero bytes, or would-block) either read has — and the
loop then continues on the remaining environment, so neither stream is
ever dropped from polling; the loop body breaks exactly when the
channel-level end-of-stream query answers true; and a run of the loop
that terminates by breaking did observe a positive channel end-of-stream
answer. -/
theorem drain_polls_both_until_channel_eof :
    (∀ env : DrainEnv, headO env.eofs false = false →
      fatalOf (headO env.outs ReadRes.wouldBlock) = none →
      fatalOf (headO env.errs ReadRes.wouldBlock) = none →
      DEv.readOut (headO env.outs ReadRes.wouldBlock) ∈ (drainStep env).1 ∧
      DEv.readErr (headO env.errs ReadRes.wouldBlock) ∈ (drainStep env).1 ∧
      (drainStep env).2 = StepRes.next ⟨env.eofs.tail, env.outs.tail, env.errs.tail⟩) ∧
    (∀ env : DrainEnv, (drainStep env).2 = StepRes.brk ↔ headO env.eofs false = true) ∧
    (∀ fuel env evs, drainLoop fuel env = (evs, LoopOut.broke) →
      DEv.pollEof true ∈ evs) := by
  refine ⟨?_, ?_, ?_⟩
  · intro env h1 h2 h3
    rw [drainStep_nonfatal env h1 h2 h3]
    exact ⟨by simp, by simp, rfl⟩
  · intro env
    by_cases h : headO env.eofs false
    · simp [drainStep, h]
    · simp only [Bool.not_eq_true] at h
      rcases ho : fatalOf (headO env.outs ReadRes.wouldBlock) with _ | e
      · rcases hr : fatalOf (headO env.errs ReadRes.wouldBlock) with _ | e'
        · simp [drainStep, h, ho, hr]
        · simp [drainStep, h, ho, hr]
      · simp [drainStep, h, ho]
  · intro fuel
    induction fuel with
    | zero => intro env evs h; simp [drainLoop] at h
    | succ n ih =>
      intro env evs h
      rcases hs : drainStep env with ⟨sevs, sres⟩
      cases sres with
      | brk =>
        simp only [drainLoop, hs] at h
        injection h with ha hb
        subst ha
        have hbe := drainStep_brk_events env (by rw [hs])
        rw [hs] at hbe
        simp only at hbe
        rw [hbe]
        simp
      | fatal e =>
        simp only [drainLoop, hs] at h
        injection h with ha hb
        exact absurd hb (by simp)
      | next env' =>
        rcases hrec : drainLoop n env' with ⟨revs, rres⟩
        simp only [drainLoop, hs, hrec] at h
        injection h with ha hb
        subst ha
        subst hb
        exact List.mem_append_right _ (ih env' revs hrec)

/-- C2: in the drain loop of `exec`, a would-block answer on either
stream is not an error — the iteration completes and the loop continues
— while a read error of any other kind on either stream ends the loop
with that error, and `exec` then returns that error to the caller. -/
theorem drain_wouldblock_continues_fatal_aborts :
    (∀ env : DrainEnv, headO env.eofs false = false →
      headO env.outs ReadRes.wouldBlock = ReadRes.wouldBlock →
      fatalOf (headO env.errs ReadRes.wouldBlock) = none →
      (drainStep env).2 = StepRes.next ⟨env.eofs.tail, env.outs.tail, env.errs.tail⟩) ∧
    (∀ env : DrainEnv, headO env.eofs false = false →
      fatalOf (headO env.outs ReadRes.wouldBlock) = none →
      headO env.errs ReadRes.wouldBlock = ReadRes.wouldBlock →
      (drainStep env).2 = StepRes.next ⟨env.eofs.tail, env.outs.tail, env.errs.tail⟩) ∧
    (∀ (env : DrainEnv) (n : Nat) (e : String), headO env.eofs false = false →
      headO env.outs ReadRes.wouldBlock = ReadRes.fatal e →
      (drainLoop (n + 1) env).2 = LoopOut.fatal e) ∧
    (∀ (env : DrainEnv) (n : Nat) (e : String), headO env.eofs false = false →
      fatalOf (headO env.outs ReadRes.wouldBlock) = none →
      headO env.errs ReadRes.wouldBlock = ReadRes.fatal e →
      (drainLoop (n + 1) env).2 = LoopOut.fatal e) ∧
    (∀ (w : SshWorld) (conf : Config) (devs : List DEv) (e : String),
      w.tcpConnectRes = Except.ok () → w.handshakeRes = Except.ok () →
      (authOutcome w conf.username conf.auth).2 = RunRes.ok () →
      w.sftpRes = Except.ok () → (mkdirRecRun w).2 = RunRes.ok () →
      w.createCmdFileRes = Except.ok () → w.writeCmdFileRes = Except.ok () →
      (uploadRun w).2 = RunRes.ok () → w.channelSessionRes = Except.ok () →
      w.channelExecRes = Except.ok () →
      drainLoop w.fuel (drainEnvOf w) = (devs, LoopOut.fatal e) →
      (exec w conf).2 = RunRes.err e) := by
  refine ⟨?_, ?_, ?_, ?_, ?_⟩
  · intro env h1 h2 h3
    rw [(drainStep_nonfatal env h1 (by rw [h2]; rfl) h3)]
  · intro env h1 h2 h3
    rw [(drainStep_nonfatal env h1 h2 (by rw [h3]; rfl))]
  · intro env n e h1 h2
    simp [drainLoop, drainStep, h1, h2, fatalOf]
  · intro env n e h1 h2 h3
    rcases ho : headO env.outs ReadRes.wouldBlock with d | _ | e'
    · simp [drainLoop, drainStep, h1, ho, h3, fatalOf]
    · simp [drainLoop, drainStep, h1, ho, h3, fatalOf]
    · rw [ho] at h2; cases h2
  · intro w conf devs e h1 h2 h3 h4 h5 h6 h7 h8 h9 h10 hd
    show (exec w conf).2 = RunRes.err e
    unfold exec
    rw [rbind_snd_ok _ (by rw [h1]; rfl)]
    rw [rbind_snd_ok _ (by rw [h2]; rfl)]
    rw [rbind_snd_ok _ h3]
    rw [rbind_snd_ok _ (by rw [h4]; rfl)]
    rw [rbind_snd_ok _ (rfl : (([Ev.printRemoteDir (remoteDirStr w)],
      RunRes.ok ()) : Run Unit).2 = RunRes.ok ())]
    rw [rbind_snd_ok _ h5]
    rw [rbind_snd_ok _ (by rw [h6]; rfl)]
    rw [rbind_snd_ok _ (by rw [h7]; rfl)]
    rw [rbind_snd_ok _ h8]
    rw [rbind_snd_ok _ (by rw [h9]; rfl)]
    rw [rbind_snd_ok _ (by rw [h10]; rfl)]
    unfold postChan
    rw [rbind_snd_ok _ rfl]
    have hdr : (drainRun w).2 = RunRes.err e := by simp [drainRun, hd]
    rw [rbind_snd_err _ hdr]

/-- Witness for C1: a concrete iteration with zero bytes on standard
output and would-block on standard error reads both streams and
continues; a concrete loop that breaks observed channel end-of-stream. -/
theorem drain_polls_both_until_channel_eof_witness :
    (DEv.readOut (ReadRes.ok []) ∈
        (drainStep ⟨[false], [ReadRes.ok []], []⟩).1 ∧
      DEv.readErr ReadRes.wouldBlock ∈
        (drainStep ⟨[false], [ReadRes.ok []], []⟩).1 ∧
      (drainStep ⟨[false], [ReadRes.ok []], []⟩).2 = StepRes.next ⟨[], [], []⟩) ∧
    DEv.pollEof true ∈ [DEv.pollEof true] :=
  ⟨drain_polls_both_until_channel_eof.1 ⟨[false], [ReadRes.ok []], []⟩ rfl rfl rfl,
   drain_polls_both_until_channel_eof.2.2 1 ⟨[true], [], []⟩ [DEv.pollEof true] rfl⟩

/-- Witness for C2: a concrete would-block iteration continues the loop;
a concrete fatal standard-output read ends the loop with that error. -/
theorem drain_wouldblock_continues_fatal_aborts_witness :
    (drainStep ⟨[false], [ReadRes.wouldBlock], [ReadRes.ok [1]]⟩).2 =
      StepRes.next ⟨[], [], []⟩ ∧
    (drainLoop 1 ⟨[false], [ReadRes.fatal "io"], []⟩).2 = LoopOut.fatal "io" :=
  ⟨drain_wouldblock_continues_fatal_aborts.1
      ⟨[false], [ReadRes.wouldBlock], [ReadRes.ok [1]]⟩ rfl rfl rfl,
   drain_wouldblock_continues_fatal_aborts.2.2.1
      ⟨[false], [ReadRes.fatal "io"], []⟩ 0 "io" rfl rfl⟩

/-! ## Lemmas about the directory mirror -/

/-- Whether a mirror event touches the remote side (creating the remote
file or writing its bytes). -/
def isRemoteEv : MEv → Bool
  | MEv.createRemote _ => true
  | MEv.writeRemote _ _ => true
  | _ => false

theorem upload_dir_go_ok_files (w : MirrorWorld) (lr rb : List String) :
    ∀ wl, (upload_dir_go w lr rb wl).2 = Except.ok () →
      ∀ entry rel, Except.ok entry ∈ wl → entry.isDir = false →
        stripRel lr entry.path = some rel →
        (upload_file w entry.path (rb ++ rel)).2 = Except.ok () := by
  intro wl
  induction wl with
  | nil => intro hok entry rel hmem; simp at hmem
  | cons item rest ih =>
    intro hok entry rel hmem hdir hrel
    rcases item with e | ent
    · simp only [upload_dir_go] at hok
      rcases List.mem_cons.mp hmem with h | hmem'
      · cases h
      · exact ih hok entry rel hmem' hdir hrel
    · rcases List.mem_cons.mp hmem with h | hmem'
      · injection h with he
        subst he
        simp only [upload_dir_go, hrel, hdir, Bool.false_eq_true, if_false] at hok
        rcases hf : upload_file w entry.path (rb ++ rel) with ⟨fevs, fres⟩
        rw [hf] at hok
        cases fres with
        | error e2 => exact absurd hok (by simp)
        | ok u => cases u; rfl
      · rcases hst : stripRel lr ent.path with _ | rel2
        · simp only [upload_dir_go, hst] at hok
          exact ih hok entry rel hmem' hdir hrel
        · by_cases hd2 : ent.isDir
          · simp only [upload_dir_go, hst, hd2, if_true] at hok
            exact ih hok entry rel hmem' hdir hrel
          · simp only [Bool.not_eq_true] at hd2
            simp only [upload_dir_go, hst, hd2, Bool.false_eq_true, if_false] at hok
            rcases hf2 : upload_file w ent.path (rb ++ rel2) with ⟨fevs2, fres2⟩
            rw [hf2] at hok
            cases fres2 with
            | error e2 => exact absurd hok (by simp)
            | ok u => exact ih hok entry rel hmem' hdir hrel

/-- C5: during mirroring, a failed remote directory creation for a
directory entry is non-fatal — the mkdir outcome never changes the
result of processing the remaining entries, and the failure is logged —
whereas a file entry whose `upload_file` fails makes `upload_dir` return
that error at once; and `upload_file` fails exactly when opening or
reading the local file, or creating or writing the remote file, fails. -/
theorem upload_dir_error_policy (w : MirrorWorld) (lr rb : List String)
    (entry : WEntry) (rest : List (Except String WEntry)) :
    (entry.isDir = true →
      (upload_dir_go w lr rb (Except.ok entry :: rest)).2 =
        (upload_dir_go w lr rb rest).2) ∧
    (∀ rel e, entry.isDir = true → stripRel lr entry.path = some rel →
      w.mkdirRes (rb ++ rel) = Except.error e →
      MEv.printDirError (rb ++ rel) e ∈
        (upload_dir_go w lr rb (Except.ok entry :: rest)).1) ∧
    (∀ rel e, entry.isDir = false → stripRel lr entry.path = some rel →
      (upload_file w entry.path (rb ++ rel)).2 = Except.error e →
      (upload_dir_go w lr rb (Except.ok entry :: rest)).2 = Except.error e) ∧
    (∀ p rp e, (upload_file w p rp).2 = Except.error e ↔
      (w.openRes p = Except.error e ∨
       (w.openRes p = Except.ok () ∧ w.readRes p = Except.error e) ∨
       (w.openRes p = Except.ok () ∧ (∃ c, w.readRes p = Except.ok c) ∧
         w.createRes rp = Except.error e) ∨
       (w.openRes p = Except.ok () ∧ (∃ c, w.readRes p = Except.ok c) ∧
         w.createRes rp = Except.ok () ∧ w.writeRes rp = Except.error e))) := by
  refine ⟨?_, ?_, ?_, ?_⟩
  · intro hdir
    rcases hrel : stripRel lr entry.path with _ | rel
    · simp [upload_dir_go, hrel]
    · simp [upload_dir_go, hrel, hdir]
  · intro rel e hdir hrel hmk
    simp [upload_dir_go, hrel, hdir, hmk]
  · intro rel e hdir hrel hup
    simp only [upload_dir_go, hrel, hdir, Bool.false_eq_true, if_false]
    rcases hf : upload_file w entry.path (rb ++ rel) with ⟨fevs, fres⟩
    rw [hf] at hup
    simp only at hup
    subst hup
    rfl
  · intro p rp e
    rcases hop : w.openRes p with e1 | u
    · simp [upload_file, hop]
    · cases u
      rcases hrd : w.readRes p with e2 | c
      · simp [upload_file, hop, hrd]
      · rcases hcr : w.createRes rp with e3 | u
        · simp [upload_file, hop, hrd, hcr]
        · cases u
          rcases hwr : w.writeRes rp with e4 | u
          · simp [upload_file, hop, hrd, hcr, hwr]
          · cases u
            simp [upload_file, hop, hrd, hcr, hwr]

/-- Witness for C5: a concrete directory entry does not change the
mirror's result, and a concrete file entry whose local open fails makes
the mirror return that error. -/
theorem upload_dir_error_policy_witness :
    (upload_dir_go mwOk ["."] [] [Except.ok ⟨["."], true⟩]).2 =
      (upload_dir_go mwOk ["."] [] []).2 ∧
    (upload_dir_go mwOpenFail [] [] [Except.ok ⟨["f"], false⟩]).2 =
      Except.error "denied" :=
  ⟨(upload_dir_error_policy mwOk ["."] [] ⟨["."], true⟩ []).1 rfl,
   (upload_dir_error_policy mwOpenFail [] [] ⟨["f"], false⟩ []).2.2.1
     ["f"] "denied" rfl rfl rfl⟩

/-- Counterexample to C6 as stated: a run whose walker yields one
walker-level error (for example a failed directory read during the
walk).  The run succeeds, the walker error is not surfaced to the
caller, and nothing at all is logged — yet this swallowed error is
neither a directory-creation failure nor an entry that failed to resolve
to a relative path, so the list of silently swallowed cases in the claim
is incomplete. -/
theorem upload_dir_swallows_walk_errors :
    (upload_dir mwWalkErr [] []).2 = Except.ok () ∧
    (upload_dir mwWalkErr [] []).1 = [MEv.skipWalkError "boom"] ∧
    (upload_dir mwWalkErr [] []).1.filter isLogEv = [] ∧
    mwWalkErr.walk = [Except.error "boom"] :=
  ⟨rfl, rfl, rfl, rfl⟩

/-- C6 (amended): the errors `upload_dir` swallows are exactly three
kinds — walker-level errors (skipped with no log line and no effect on
the result), entries outside the local root, and directory-creation
failures (logged) — and nothing else is swallowed: in a run that returns
success, every file entry the walker yielded had a fully successful
`upload_file`, so any open, read, create or write failure is surfaced. -/
theorem upload_dir_surfaces_other_errors (w : MirrorWorld) (lr rb : List String) :
    (∀ e rest,
      (upload_dir_go w lr rb (Except.error e :: rest)).1 =
        MEv.skipWalkError e :: (upload_dir_go w lr rb rest).1 ∧
      (upload_dir_go w lr rb (Except.error e :: rest)).2 =
        (upload_dir_go w lr rb rest).2) ∧
    (∀ entry rest, stripRel lr entry.path = none →
      upload_dir_go w lr rb (Except.ok entry :: rest) =
        (MEv.skipOutsideRoot entry.path :: (upload_dir_go w lr rb rest).1,
         (upload_dir_go w lr rb rest).2)) ∧
    (∀ wl, (upload_dir_go w lr rb wl).2 = Except.ok () →
      ∀ entry rel, Except.ok entry ∈ wl → entry.isDir = false →
        stripRel lr entry.path = some rel →
        (upload_file w entry.path (rb ++ rel)).2 = Except.ok ()) := by
  refine ⟨?_, ?_, upload_dir_go_ok_files w lr rb⟩
  · intro e rest
    exact ⟨rfl, rfl⟩
  · intro entry rest hst
    simp [upload_dir_go, hst]

/-- Witness for C6 (amended): in a concrete successful run whose walker
yielded one file entry, that file's upload succeeded. -/
theorem upload_dir_surfaces_other_errors_witness :
    (upload_dir_go { mwOk with walk := [Except.ok ⟨["f"], false⟩] } [] []
        [Except.ok ⟨["f"], false⟩]).2 = Except.ok () ∧
    (upload_file { mwOk with walk := [Except.ok ⟨["f"], false⟩] } ["f"]
        ([] ++ ["f"])).2 = Except.ok () :=
  ⟨rfl,
   (upload_dir_surfaces_other_errors { mwOk with walk := [Except.ok ⟨["f"], false⟩] }
      [] []).2.2 [Except.ok ⟨["f"], false⟩] rfl ⟨["f"], false⟩ ["f"]
      (List.mem_singleton.mpr rfl) rfl rfl⟩

/-- C10: `upload_file` opens and fully reads the local file before any
remote operation.  If the open fails, or the open succeeds and the read
fails, it returns that error having performed no remote create and no
remote write; when everything succeeds, the remote write carries exactly
the bytes the read produced, and the remote operations come after the
local ones. -/
theorem upload_file_local_failure_no_remote (w : MirrorWorld) (p rp : List String) :
    (∀ e, w.openRes p = Except.error e →
      upload_file w p rp = ([MEv.openLocal p], Except.error e) ∧
      (upload_file w p rp).1.filter isRemoteEv = []) ∧
    (∀ e, w.openRes p = Except.ok () → w.readRes p = Except.error e →
      upload_file w p rp = ([MEv.openLocal p, MEv.readLocal p], Except.error e) ∧
      (upload_file w p rp).1.filter isRemoteEv = []) ∧
    (∀ c, w.openRes p = Except.ok () → w.readRes p = Except.ok c →
      w.createRes rp = Except.ok () → w.writeRes rp = Except.ok () →
      upload_file w p rp =
        ([MEv.openLocal p, MEv.readLocal p, MEv.createRemote rp,
          MEv.writeRemote rp c, MEv.printUploaded rp], Except.ok ())) := by
  refine ⟨?_, ?_, ?_⟩
  · intro e hop
    refine ⟨by simp [upload_file, hop], ?_⟩
    simp [upload_file, hop, isRemoteEv]
  · intro e hop hrd
    refine ⟨by simp [upload_file, hop, hrd], ?_⟩
    simp [upload_file, hop, hrd, isRemoteEv]
  · intro c hop hrd hcr hwr
    simp [upload_file, hop, hrd, hcr, hwr]

/-- Witness for C10: a concrete failing local open returns the error
with no remote event performed. -/
theorem upload_file_local_failure_no_remote_witness :
    upload_file mwOpenFail ["f"] ["r"] = ([MEv.openLocal ["f"]], Except.error "denied") ∧
    (upload_file mwOpenFail ["f"] ["r"]).1.filter isRemoteEv = [] :=
  (upload_file_local_failure_no_remote mwOpenFail ["f"] ["r"]).1 "denied" rfl

/-! ## Lemmas about the `exec` pipeline -/

theorem liftE_events {α : Type} (ev : Ev) (r : Except String α) :
    (liftE ev r).1 = [ev] := by
  cases r <;> rfl

theorem liftE_snd_ok {α : Type} {ev : Ev} {r : Except String α} {a : α}
    (h : (liftE ev r).2 = RunRes.ok a) : r = Except.ok a := by
  cases r with
  | ok b => cases h; rfl
  | error e => cases h

theorem mem_rbind {α β : Type} {x : Run α} {f : α → Run β} {ev : Ev}
    (h : ev ∈ (rbind x f).1) :
    ev ∈ x.1 ∨ ∃ a, x.2 = RunRes.ok a ∧ ev ∈ (f a).1 := by
  rcases x with ⟨evs, r⟩
  cases r with
  | ok a =>
    simp only [rbind] at h
    rcases List.mem_append.mp h with h' | h'
    · exact Or.inl h'
    · exact Or.inr ⟨a, rfl, h'⟩
  | err e => exact Or.inl h
  | diverge => exact Or.inl h

theorem authOutcome_events (w : SshWorld) (u : String) (a : Auth) :
    ∀ ev ∈ (authOutcome w u a).1,
      ev = Ev.authPassword u ∨ ev = Ev.authPubkey u ∨ ev = Ev.agentNew ∨
      ev = Ev.agentConnect ∨ ev = Ev.agentList ∨ ev = Ev.agentGetIdentities ∨
      ev = Ev.agentAuth u := by
  intro ev hev
  cases a with
  | password p =>
    simp only [authOutcome] at hev
    rw [liftE_events] at hev
    simp only [List.mem_singleton] at hev
    exact Or.inl hev
  | authKey k =>
    simp only [authOutcome] at hev
    rw [liftE_events] at hev
    simp only [List.mem_singleton] at hev
    exact Or.inr (Or.inl hev)
  | agent =>
    simp only [authOutcome] at hev
    rcases mem_rbind hev with h | ⟨a1, -, h⟩
    · rw [liftE_events] at h
      simp only [List.mem_singleton] at h
      exact Or.inr (Or.inr (Or.inl h))
    rcases mem_rbind h with h | ⟨a2, -, h⟩
    · rw [liftE_events] at h
      simp only [List.mem_singleton] at h
      exact Or.inr (Or.inr (Or.inr (Or.inl h)))
    rcases mem_rbind h with h | ⟨a3, -, h⟩
    · rw [liftE_events] at h
      simp only [List.mem_singleton] at h
      exact Or.inr (Or.inr (Or.inr (Or.inr (Or.inl h))))
    rcases mem_rbind h with h | ⟨ids, -, h⟩
    · rw [liftE_events] at h
      simp only [List.mem_singleton] at h
      exact Or.inr (Or.inr (Or.inr (Or.inr (Or.inr (Or.inl h)))))
    by_cases hl : ids.length = 0
    · rw [if_pos hl] at h
      simp at h
    · rw [if_neg hl] at h
      rw [liftE_events] at h
      simp only [List.mem_singleton] at h
      exact Or.inr (Or.inr (Or.inr (Or.inr (Or.inr (Or.inr h)))))

theorem mkdirRecRun_events (w : SshWorld) :
    ∀ ev ∈ (mkdirRecRun w).1, ∃ p m, ev = Ev.mkdir p m := by
  intro ev hev
  unfold mkdirRecRun at hev
  rcases hm : sftp_mkdir_recursive w.remoteFs (remoteDirC w) with ⟨fs', created, err⟩
  rw [hm] at hev
  cases err with
  | none =>
    simp only [List.mem_map] at hev
    obtain ⟨pm, -, rfl⟩ := hev
    exact ⟨pm.1, pm.2, rfl⟩
  | some e =>
    simp only [List.mem_map] at hev
    obtain ⟨pm, -, rfl⟩ := hev
    exact ⟨pm.1, pm.2, rfl⟩

theorem uploadRun_events (w : SshWorld) :
    ∀ ev ∈ (uploadRun w).1, ∃ m, ev = Ev.mirrorEv m := by
  intro ev hev
  unfold uploadRun at hev
  rcases hu : upload_dir w.mirror ["."] (containerC w) with ⟨mevs, r⟩
  rw [hu] at hev
  cases r with
  | ok u =>
    simp only [List.mem_map] at hev
    obtain ⟨m, -, rfl⟩ := hev
    exact ⟨m, rfl⟩
  | error e =>
    simp only [List.mem_map] at hev
    obtain ⟨m, -, rfl⟩ := hev
    exact ⟨m, rfl⟩

theorem drainRun_events (w : SshWorld) :
    ∀ ev ∈ (drainRun w).1, ∃ d, ev = Ev.drainEv d := by
  intro ev hev
  unfold drainRun at hev
  rcases hd : drainLoop w.fuel (drainEnvOf w) with ⟨devs, out⟩
  rw [hd] at hev
  cases out with
  | broke =>
    simp only [List.mem_map] at hev
    obtain ⟨d, -, rfl⟩ := hev
    exact ⟨d, rfl⟩
  | fatal e =>
    simp only [List.mem_map] at hev
    obtain ⟨d, -, rfl⟩ := hev
    exact ⟨d, rfl⟩
  | fuelOut =>
    simp only [List.mem_map] at hev
    obtain ⟨d, -, rfl⟩ := hev
    exact ⟨d, rfl⟩

theorem exec_event_shapes (w : SshWorld) (conf : Config) :
    ∀ ev ∈ (exec w conf).1,
      (∀ s, ev = Ev.chanExec s → s = invocation w conf) ∧
      (∀ b, ev = Ev.waitClose b → b = false) ∧
      (∀ b, ev = Ev.setBlocking b → b = false) := by
  intro ev hev
  unfold exec at hev
  rcases mem_rbind hev with h | ⟨-, -, h⟩
  · rw [liftE_events] at h
    simp only [List.mem_singleton] at h
    subst h
    exact ⟨fun _ hs => Ev.noConfusion hs, fun _ hb => Ev.noConfusion hb,
      fun _ hb => Ev.noConfusion hb⟩
  rcases mem_rbind h with h | ⟨-, -, h⟩
  · rw [liftE_events] at h
    simp only [List.mem_singleton] at h
    subst h
    exact ⟨fun _ hs => Ev.noConfusion hs, fun _ hb => Ev.noConfusion hb,
      fun _ hb => Ev.noConfusion hb⟩
  rcases mem_rbind h with h | ⟨-, -, h⟩
  · rcases authOutcome_events w conf.username conf.auth ev h with
      h | h | h | h | h | h | h <;> subst h <;>
      exact ⟨fun _ hs => Ev.noConfusion hs, fun _ hb => Ev.noConfusion hb,
        fun _ hb => Ev.noConfusion hb⟩
  rcases mem_rbind h with h | ⟨-, -, h⟩
  · rw [liftE_events] at h
    simp only [List.mem_singleton] at h
    subst h
    exact ⟨fun _ hs => Ev.noConfusion hs, fun _ hb => Ev.noConfusion hb,
      fun _ hb => Ev.noConfusion hb⟩
  rcases mem_rbind h with h | ⟨-, -, h⟩
  · simp only [List.mem_singleton] at h
    subst h
    exact ⟨fun _ hs => Ev.noConfusion hs, fun _ hb => Ev.noConfusion hb,
      fun _ hb => Ev.noConfusion hb⟩
  rcases mem_rbind h with h | ⟨-, -, h⟩
  · obtain ⟨p, m, rfl⟩ := mkdirRecRun_events w ev h
    exact ⟨fun _ hs => Ev.noConfusion hs, fun _ hb => Ev.noConfusion hb,
      fun _ hb => Ev.noConfusion hb⟩
  rcases mem_rbind h with h | ⟨-, -, h⟩
  · rw [liftE_events] at h
    simp only [List.mem_singleton] at h
    subst h
    exact ⟨fun _ hs => Ev.noConfusion hs, fun _ hb => Ev.noConfusion hb,
      fun _ hb => Ev.noConfusion hb⟩
  rcases mem_rbind h with h | ⟨-, -, h⟩
  · rw [liftE_events] at h
    simp only [List.mem_singleton] at h
    subst h
    exact ⟨fun _ hs => Ev.noConfusion hs, fun _ hb => Ev.noConfusion hb,
      fun _ hb => Ev.noConfusion hb⟩
  rcases mem_rbind h with h | ⟨-, -, h⟩
  · obtain ⟨m, rfl⟩ := uploadRun_events w ev h
    exact ⟨fun _ hs => Ev.noConfusion hs, fun _ hb => Ev.noConfusion hb,
      fun _ hb => Ev.noConfusion hb⟩
  rcases mem_rbind h with h | ⟨-, -, h⟩
  · rw [liftE_events] at h
    simp only [List.mem_singleton] at h
    subst h
    exact ⟨fun _ hs => Ev.noConfusion hs, fun _ hb => Ev.noConfusion hb,
      fun _ hb => Ev.noConfusion hb⟩
  rcases mem_rbind h with h | ⟨-, -, h⟩
  · rw [liftE_events] at h
    simp only [List.mem_singleton] at h
    subst h
    refine ⟨?_, ?_, ?_⟩
    · intro s hs
      injection hs with h'
      exact h'.symm
    · intro b hb
      exact Ev.noConfusion hb
    · intro b hb
      exact Ev.noConfusion hb
  unfold postChan at h
  rcases mem_rbind h with h | ⟨-, -, h⟩
  · simp only [List.mem_singleton] at h
    subst h
    refine ⟨?_, ?_, ?_⟩
    · intro s hs
      exact Ev.noConfusion hs
    · intro b hb
      exact Ev.noConfusion hb
    · intro b hb
      injection hb with h'
      exact h'.symm
  rcases mem_rbind h with h | ⟨-, -, h⟩
  · obtain ⟨d, rfl⟩ := drainRun_events w ev h
    exact ⟨fun _ hs => Ev.noConfusion hs, fun _ hb => Ev.noConfusion hb,
      fun _ hb => Ev.noConfusion hb⟩
  rcases mem_rbind h with h | ⟨-, -, h⟩
  · rw [liftE_events] at h
    simp only [List.mem_singleton] at h
    subst h
    refine ⟨?_, ?_, ?_⟩
    · intro s hs
      exact Ev.noConfusion hs
    · intro b hb
      injection hb with h'
      exact h'.symm
    · intro b hb
      exact Ev.noConfusion hb
  rcases mem_rbind h with h | ⟨n, -, h⟩
  · rw [liftE_events] at h
    simp only [List.mem_singleton] at h
    subst h
    exact ⟨fun _ hs => Ev.noConfusion hs, fun _ hb => Ev.noConfusion hb,
      fun _ hb => Ev.noConfusion hb⟩
  · simp only [List.mem_singleton] at h
    subst h
    exact ⟨fun _ hs => Ev.noConfusion hs, fun _ hb => Ev.noConfusion hb,
      fun _ hb => Ev.noConfusion hb⟩

theorem exec_unfold_success (w : SshWorld) (conf : Config)
    (h1 : w.tcpConnectRes = Except.ok ()) (h2 : w.handshakeRes = Except.ok ())
    (h3 : (authOutcome w conf.username conf.auth).2 = RunRes.ok ())
    (h4 : w.sftpRes = Except.ok ()) (h5 : (mkdirRecRun w).2 = RunRes.ok ())
    (h6 : w.createCmdFileRes = Except.ok ()) (h7 : w.writeCmdFileRes = Except.ok ())
    (h8 : (uploadRun w).2 = RunRes.ok ()) (h9 : w.channelSessionRes = Except.ok ())
    (h10 : w.channelExecRes = Except.ok ()) :
    exec w conf =
      ([Ev.connect, Ev.handshake] ++ (authOutcome w conf.username conf.auth).1 ++
       [Ev.sftpOpen, Ev.printRemoteDir (remoteDirStr w)] ++ (mkdirRecRun w).1 ++
       [Ev.createFile (cmdTxtC w), Ev.writeFile (cmdTxtC w) conf.command] ++
       (uploadRun w).1 ++ [Ev.channelOpen, Ev.chanExec (invocation w conf)] ++
       (postChan w).1,
       (postChan w).2) := by
  rcases ha : authOutcome w conf.username conf.auth with ⟨aevs, ares⟩
  rw [ha] at h3
  simp only at h3
  subst h3
  rcases hm : mkdirRecRun w with ⟨mevs, mres⟩
  rw [hm] at h5
  simp only at h5
  subst h5
  rcases hu2 : uploadRun w with ⟨uevs, ures⟩
  rw [hu2] at h8
  simp only at h8
  subst h8
  unfold exec
  rw [h1, h2, h4, h6, h7, h9, h10, ha, hm, hu2]
  simp [rbind, liftE, List.append_assoc]

theorem postChan_success (w : SshWorld) (n : Int) (devs : List DEv)
    (hd : drainLoop w.fuel (drainEnvOf w) = (devs, LoopOut.broke))
    (hw : w.waitCloseRes = Except.ok ()) (hx : w.exitStatusRes = Except.ok n) :
    postChan w =
      (Ev.setBlocking false :: List.map Ev.drainEv devs ++
        [Ev.waitClose false, Ev.exitStatusq false, Ev.printExit n],
       RunRes.ok ()) := by
  have hdr : drainRun w = (List.map Ev.drainEv devs, RunRes.ok ()) := by
    simp [drainRun, hd]
  unfold postChan
  rw [hdr, hw, hx]
  simp [rbind, liftE]

/-- Counterexample to C3 as stated: a concrete fully successful run.
The run reaches the wait after channel end-of-stream and reports the
exit status, but the wait-for-close is performed with the session still
in non-blocking mode — `set_blocking(false)` precedes the drain loop and
is never re-enabled — so the recorded wait carries blocking mode
`false` and no blocking-mode wait occurs anywhere in the run. -/
theorem exec_wait_is_not_blocking :
    (exec wOk confEx).2 = RunRes.ok () ∧
    Ev.waitClose false ∈ (exec wOk confEx).1 ∧
    Ev.waitClose true ∉ (exec wOk confEx).1 := by
  refine ⟨rfl, by decide, by decide⟩

/-- C3 (amended): when the drain loop ends because the channel reported
end-of-stream, `exec` performs a final wait for the channel to close and
then queries and prints the numeric exit status, returning success — but
the wait is performed while the session is still in non-blocking mode
(the source disables blocking before the loop and never re-enables it),
so it is not a blocking wait: no blocking-mode wait event occurs in any
run. -/
theorem exec_waits_nonblocking_then_reports_status (w : SshWorld) (conf : Config)
    (n : Int) (devs : List DEv)
    (h1 : w.tcpConnectRes = Except.ok ()) (h2 : w.handshakeRes = Except.ok ())
    (h3 : (authOutcome w conf.username conf.auth).2 = RunRes.ok ())
    (h4 : w.sftpRes = Except.ok ()) (h5 : (mkdirRecRun w).2 = RunRes.ok ())
    (h6 : w.createCmdFileRes = Except.ok ()) (h7 : w.writeCmdFileRes = Except.ok ())
    (h8 : (uploadRun w).2 = RunRes.ok ()) (h9 : w.channelSessionRes = Except.ok ())
    (h10 : w.channelExecRes = Except.ok ())
    (hd : drainLoop w.fuel (drainEnvOf w) = (devs, LoopOut.broke))
    (hw : w.waitCloseRes = Except.ok ()) (hx : w.exitStatusRes = Except.ok n) :
    exec w conf =
      ([Ev.connect, Ev.handshake] ++ (authOutcome w conf.username conf.auth).1 ++
       [Ev.sftpOpen, Ev.printRemoteDir (remoteDirStr w)] ++ (mkdirRecRun w).1 ++
       [Ev.createFile (cmdTxtC w), Ev.writeFile (cmdTxtC w) conf.command] ++
       (uploadRun w).1 ++ [Ev.channelOpen, Ev.chanExec (invocation w conf)] ++
       (Ev.setBlocking false :: List.map Ev.drainEv devs ++
         [Ev.waitClose false, Ev.exitStatusq false, Ev.printExit n]),
       RunRes.ok ()) ∧
    Ev.waitClose true ∉ (exec w conf).1 := by
  constructor
  · rw [exec_unfold_success w conf h1 h2 h3 h4 h5 h6 h7 h8 h9 h10,
      postChan_success w n devs hd hw hx]
  · intro hmem
    have hb := (exec_event_shapes w conf (Ev.waitClose true) hmem).2.1 true rfl
    cases hb

/-- Witness for C3 (amended): the concrete all-success world. -/
theorem exec_waits_nonblocking_then_reports_status_witness :
    exec wOk confEx =
      ([Ev.connect, Ev.handshake] ++ (authOutcome wOk confEx.username confEx.auth).1 ++
       [Ev.sftpOpen, Ev.printRemoteDir (remoteDirStr wOk)] ++ (mkdirRecRun wOk).1 ++
       [Ev.createFile (cmdTxtC wOk), Ev.writeFile (cmdTxtC wOk) confEx.command] ++
       (uploadRun wOk).1 ++ [Ev.channelOpen, Ev.chanExec (invocation wOk confEx)] ++
       (Ev.setBlocking false :: List.map Ev.drainEv [DEv.pollEof true] ++
         [Ev.waitClose false, Ev.exitStatusq false, Ev.printExit 0]),
       RunRes.ok ()) ∧
    Ev.waitClose true ∉ (exec wOk confEx).1 :=
  exec_waits_nonblocking_then_reports_status wOk confEx 0 [DEv.pollEof true]
    rfl rfl rfl rfl rfl rfl rfl rfl rfl rfl rfl rfl rfl

/-- C7: whenever the configured authentication variant would fail, a run
of `exec` returns an error and its trace contains no workspace
operation: the SFTP session is not opened, no remote directory is
created, no remote file is created or written, and no mirroring happens
(this also covers failures of the connect or handshake that precede
authentication). -/
theorem exec_auth_failure_no_workspace (w : SshWorld) (conf : Config) (e : String)
    (ha : (authOutcome w conf.username conf.auth).2 = RunRes.err e) :
    (∃ e', (exec w conf).2 = RunRes.err e') ∧
    ∀ ev ∈ (exec w conf).1, isWorkspaceEv ev = false := by
  rcases h1 : w.tcpConnectRes with e1 | u
  · constructor
    · exact ⟨e1, by unfold exec; rw [rbind_snd_err _ (by rw [h1]; rfl)]⟩
    · intro ev hev
      unfold exec at hev
      rw [rbind_err _ (by rw [h1]; rfl)] at hev
      rw [liftE_events] at hev
      simp only [List.mem_singleton] at hev
      subst hev
      rfl
  · cases u
    rcases h2 : w.handshakeRes with e2 | u
    · have hx : exec w conf = ([Ev.connect, Ev.handshake], RunRes.err e2) := by
        unfold exec
        rw [h1, h2]
        rw [rbind_ok _ (rfl : (liftE Ev.connect (Except.ok ())).2 = RunRes.ok ())]
        rw [rbind_err _ (rfl : (liftE Ev.handshake (Except.error e2)).2 = RunRes.err e2)]
        rfl
      constructor
      · exact ⟨e2, by rw [hx]⟩
      · intro ev hev
        rw [hx] at hev
        simp only [List.mem_cons, List.mem_singleton] at hev
        rcases hev with rfl | rfl | hev
        · rfl
        · rfl
        · simp at hev
    · cases u
      have hx : exec w conf =
          ([Ev.connect, Ev.handshake] ++ (authOutcome w conf.username conf.auth).1,
           RunRes.err e) := by
        unfold exec
        rw [h1, h2]
        rw [rbind_ok _ (rfl : (liftE Ev.connect (Except.ok ())).2 = RunRes.ok ())]
        rw [rbind_ok _ (rfl : (liftE Ev.handshake (Except.ok ())).2 = RunRes.ok ())]
        rw [rbind_err _ ha]
        simp [liftE]
      constructor
      · exact ⟨e, by rw [hx]⟩
      · intro ev hev
        rw [hx] at hev
        rcases List.mem_append.mp hev with hev | hev
        · simp only [List.mem_cons, List.mem_singleton] at hev
          rcases hev with rfl | rfl | hev
          · rfl
          · rfl
          · simp at hev
        · rcases authOutcome_events w conf.username conf.auth ev hev with
            h | h | h | h | h | h | h <;> subst h <;> rfl

/-- Witness for C7: a concrete rejected password leaves the remote
untouched. -/
theorem exec_auth_failure_no_workspace_witness :
    (∃ e', (exec wAuthFail confEx).2 = RunRes.err e') ∧
    ∀ ev ∈ (exec wAuthFail confEx).1, isWorkspaceEv ev = false :=
  exec_auth_failure_no_workspace wAuthFail confEx "Authentication failed" rfl

/-- C8: with the agent variant, when the agent connection and identity
enumeration succeed but the agent holds zero identities, authentication
fails at once with the no-identities error and the trace shows no
server-side agent authentication attempt; conversely a server-side agent
authentication attempt in the trace proves the agent listed a nonempty
set of identities. -/
theorem agent_zero_identities_fails_fast (w : SshWorld) (u : String) :
    (w.sessAgentRes = Except.ok () → w.agentConnectRes = Except.ok () →
      w.agentListRes = Except.ok () → w.agentIdentitiesRes = Except.ok [] →
      authOutcome w u Auth.agent =
        ([Ev.agentNew, Ev.agentConnect, Ev.agentList, Ev.agentGetIdentities],
         RunRes.err "No identities found in the ssh-agent")) ∧
    (Ev.agentAuth u ∈ (authOutcome w u Auth.agent).1 →
      ∃ ids, w.agentIdentitiesRes = Except.ok ids ∧ ids ≠ []) := by
  constructor
  · intro h1 h2 h3 h4
    simp [authOutcome, h1, h2, h3, h4, liftE, rbind]
  · intro hmem
    simp only [authOutcome] at hmem
    rcases mem_rbind hmem with h | ⟨a1, -, h⟩
    · rw [liftE_events] at h
      simp at h
    rcases mem_rbind h with h | ⟨a2, -, h⟩
    · rw [liftE_events] at h
      simp at h
    rcases mem_rbind h with h | ⟨a3, -, h⟩
    · rw [liftE_events] at h
      simp at h
    rcases mem_rbind h with h | ⟨ids, hres, h⟩
    · rw [liftE_events] at h
      simp at h
    refine ⟨ids, liftE_snd_ok hres, ?_⟩
    by_cases hl : ids.length = 0
    · rw [if_pos hl] at h
      simp at h
    · intro hnil
      exact hl (by rw [hnil]; rfl)

/-- Witness for C8: the concrete empty-agent world fails fast. -/
theorem agent_zero_identities_fails_fast_witness :
    authOutcome wNoIds "u" Auth.agent =
      ([Ev.agentNew, Ev.agentConnect, Ev.agentList, Ev.agentGetIdentities],
       RunRes.err "No identities found in the ssh-agent") :=
  (agent_zero_identities_fails_fast wNoIds "u").1 rfl rfl rfl rfl

/-- C9: any command submitted on the execution channel during a run of
`exec` is exactly the string `cd <workspace>/container && <command>`,
built from the provisioned workspace path and the configured command by
the literal `&&` join with no other modification; and whenever the run
reaches the channel, a submission with exactly that string occurs. -/
theorem exec_command_string (w : SshWorld) (conf : Config) :
    (∀ s, Ev.chanExec s ∈ (exec w conf).1 →
      s = "cd " ++ remoteDirStr w ++ "/container && " ++ conf.command) ∧
    (w.tcpConnectRes = Except.ok () → w.handshakeRes = Except.ok () →
      (authOutcome w conf.username conf.auth).2 = RunRes.ok () →
      w.sftpRes = Except.ok () → (mkdirRecRun w).2 = RunRes.ok () →
      w.createCmdFileRes = Except.ok () → w.writeCmdFileRes = Except.ok () →
      (uploadRun w).2 = RunRes.ok () → w.channelSessionRes = Except.ok () →
      w.channelExecRes = Except.ok () →
      Ev.chanExec ("cd " ++ remoteDirStr w ++ "/container && " ++ conf.command) ∈
        (exec w conf).1) := by
  constructor
  · intro s hmem
    exact (exec_event_shapes w conf (Ev.chanExec s) hmem).1 s rfl
  · intro h1 h2 h3 h4 h5 h6 h7 h8 h9 h10
    rw [exec_unfold_success w conf h1 h2 h3 h4 h5 h6 h7 h8 h9 h10]
    simp [invocation]

/-- Witness for C9: the concrete all-success run submits exactly the
composed string. -/
theorem exec_command_string_witness :
    Ev.chanExec ("cd " ++ remoteDirStr wOk ++ "/container && " ++ confEx.command) ∈
      (exec wOk confEx).1 :=
  (exec_command_string wOk confEx).2 rfl rfl rfl rfl rfl rfl rfl rfl rfl rfl

end CseRun
